import Mathlib

/-!
# Docker tag and secret resources

A shallow embedding of `docker/resource_docker_tag.go` and
`docker/resource_docker_secret.go`.

The lifecycle callbacks are written as state-passing functions.  The
`*schema.ResourceData` argument becomes a record that is passed in and
returned.  The calls that leave the package (digest resolution, image pull,
local image listing, forced removal, the swarm secret API) are fields of a
record of collaborators acting on an arbitrary world state `σ`; every
callback also returns the list of the calls it made, with their results, so
that the order of the requests can be stated.
-/

namespace Docker

/-- A Go `error` value, identified with its message. -/
abbrev Error := String

/-! ## Tag resource: data model -/

/-- The fields of `*schema.ResourceData` of the tag resource: the identifier
(`d.Id()`), the configured `name`, and the three computed attributes. -/
structure TagData where
  id : String
  name : String
  latest : String
  full_image_name : String
  all : List String
deriving DecidableEq, Repr

/-- The calls made to the collaborators, with the argument that identifies
the image. -/
inductive Call where
  | getLatestImageDigestByName (name : String)
  | pullImage (name : String)
  | fetchLocalImages
  | forceRemoveImage (taggedName : String)
deriving DecidableEq, Repr

/-- One call to a collaborator together with the error it returned
(`none` for `nil`). -/
structure Event where
  call : Call
  err : Option Error
deriving DecidableEq, Repr

/-- The functions of the package that are called by the tag resource and
that talk to the registry and the docker daemon.  `Data` is the package's
type of the local image table filled by `fetchLocalImages`.  Each function
takes the state of the outside world and returns the new one. -/
structure Collaborators (σ Data : Type) where
  getLatestImageDigestByName : String → σ → (String × Option Error) × σ
  pullImage : String → σ → Option Error × σ
  fetchLocalImages : σ → (Data × Option Error) × σ
  forceRemoveImage : String → Data → σ → Option Error × σ

/-- How a callback ends: it returns `nil`, returns an error, or the Go
runtime stops it on a slice expression that is out of range. -/
inductive Outcome where
  | ok
  | error (e : Error)
  | sliceOutOfRange
deriving DecidableEq, Repr

/-- What a helper leaves behind: the error it returns, the world after it,
and the calls it made, oldest first. -/
structure Step (σ : Type) where
  err : Option Error
  st : σ
  events : List Event

/-- What a lifecycle callback leaves behind: how it ended, the resource
data, the world after it, and the calls it made, oldest first. -/
structure Run (σ : Type) where
  outcome : Outcome
  d : TagData
  st : σ
  events : List Event

/-- The images whose removal was requested, in the order of the requests. -/
def removals : List Event → List String
  | [] => []
  | ⟨Call.forceRemoveImage t, _⟩ :: es => t :: removals es
  | _ :: es => removals es

/-! ## Tag resource: operations -/

variable {σ Data : Type}

/-- The Go function `interfaceSliceToStringSlice`: a copy of the list, each
element asserted to be a string. -/
def interfaceSliceToStringSlice (ifaces : List String) : List String :=
  ifaces.map fun s => s

/-- The Go function `pullImageByDigest`. -/
def pullImageByDigest (c : Collaborators σ Data) (name digest : String)
    (s : σ) : Step σ :=
  let name := name ++ "@" ++ digest
  match c.pullImage name s with
  | (some err, s1) =>
    ⟨some ("Unable to pull image " ++ name ++ ": " ++ err), s1, [⟨Call.pullImage name, some err⟩]⟩
  | (none, s1) => ⟨none, s1, [⟨Call.pullImage name, none⟩]⟩

/-- The `for _, digest := range managedDigests` loop of
`removeImagesByDigest`. -/
def removeLoop (c : Collaborators σ Data) (name : String) (data : Data) :
    List String → σ → Step σ
  | [], s => ⟨none, s, []⟩
  | digest :: rest, s =>
    let taggedName := name ++ "@" ++ digest
    match c.forceRemoveImage taggedName data s with
    | (some err, s1) => ⟨some err, s1, [⟨Call.forceRemoveImage taggedName, some err⟩]⟩
    | (none, s1) =>
      let r := removeLoop c name data rest s1
      ⟨r.err, r.st, ⟨Call.forceRemoveImage taggedName, none⟩ :: r.events⟩

/-- The Go function `removeImagesByDigest`. -/
def removeImagesByDigest (c : Collaborators σ Data) (name : String)
    (managedDigests : List String) (s : σ) : Step σ :=
  match c.fetchLocalImages s with
  | ((_, some err), s1) => ⟨some err, s1, [⟨Call.fetchLocalImages, some err⟩]⟩
  | ((data, none), s1) =>
    let r := removeLoop c name data managedDigests s1
    ⟨r.err, r.st, ⟨Call.fetchLocalImages, none⟩ :: r.events⟩

/-- The Go function `resourceDockerTagCreate`. -/
def resourceDockerTagCreate (c : Collaborators σ Data) (d : TagData)
    (s : σ) : Run σ :=
  let name := d.name
  match c.getLatestImageDigestByName name s with
  | ((_, some err), s1) =>
    ⟨Outcome.error err, d, s1, [⟨Call.getLatestImageDigestByName name, some err⟩]⟩
  | ((digest, none), s1) =>
    let p := pullImageByDigest c name digest s1
    match p.err with
    | some err =>
      ⟨Outcome.error err, d, p.st, ⟨Call.getLatestImageDigestByName name, none⟩ :: p.events⟩
    | none =>
      let d := { d with id := d.name }
      let d := { d with latest := digest }
      let d := { d with full_image_name := name ++ "@" ++ digest }
      let d := { d with all := [digest] }
      ⟨Outcome.ok, d, p.st, ⟨Call.getLatestImageDigestByName name, none⟩ :: p.events⟩

/-- The Go function `resourceDockerTagRead`. -/
def resourceDockerTagRead (c : Collaborators σ Data) (d : TagData)
    (s : σ) : Run σ :=
  let name := d.name
  match c.getLatestImageDigestByName name s with
  | ((digest, err), s1) =>
    let d := { d with latest := digest }
    let d := { d with full_image_name := name ++ "@" ++ digest }
    let d := { d with all := d.all }
    ⟨match err with
      | none => Outcome.ok
      | some e => Outcome.error e,
     d, s1, [⟨Call.getLatestImageDigestByName name, err⟩]⟩

/-- The Go function `resourceDockerTagUpdate`.  The slice expression
`managedDigests[1:]` is out of range when the list is empty. -/
def resourceDockerTagUpdate (c : Collaborators σ Data) (d : TagData)
    (s : σ) : Run σ :=
  let name := d.name
  let digest := d.latest
  let p := pullImageByDigest c name digest s
  match p.err with
  | some err => ⟨Outcome.error err, d, p.st, p.events⟩
  | none =>
    match interfaceSliceToStringSlice d.all with
    | [] => ⟨Outcome.sliceOutOfRange, d, p.st, p.events⟩
    | first :: rest =>
      let q := removeImagesByDigest c name rest p.st
      match q.err with
      | some err => ⟨Outcome.error err, d, q.st, p.events ++ q.events⟩
      | none =>
        let d := { d with full_image_name := name ++ "@" ++ digest }
        let d := { d with all := ["latest", first] }
        let r := resourceDockerTagRead c d q.st
        ⟨r.outcome, r.d, r.st, p.events ++ q.events ++ r.events⟩

/-- The Go function `resourceDockerTagDelete`. -/
def resourceDockerTagDelete (c : Collaborators σ Data) (d : TagData)
    (s : σ) : Run σ :=
  let name := d.name
  let managedDigests := interfaceSliceToStringSlice d.all
  let q := removeImagesByDigest c name managedDigests s
  match q.err with
  | some err => ⟨Outcome.error err, d, q.st, q.events⟩
  | none => ⟨Outcome.ok, { d with id := "" }, q.st, q.events⟩

/-! ## Secret resource -/

/-- The fields of `*schema.ResourceData` of the secret resource. -/
structure SecretData where
  id : String
  name : String
  data : String
  labels : List (String × String)
deriving DecidableEq, Repr

/-- The type `swarm.SecretSpec`: the annotations (name, labels) and the
payload bytes. -/
structure SecretSpec where
  Name : String
  Labels : List (String × String)
  Data : List Nat
deriving DecidableEq, Repr

/-- The calls of the secret resource that leave the package: the base64
decoder of the standard library, the helper `labelSetToMap`, and the three
methods of the docker client.  The client methods that return a secret
return its `ID`. -/
structure SecretClient (σ : Type) where
  DecodeString : String → List Nat
  labelSetToMap : List (String × String) → List (String × String)
  SecretCreate : SecretSpec → σ → (String × Option Error) × σ
  SecretInspectWithRaw : String → σ → (String × Option Error) × σ
  SecretRemove : String → σ → Option Error × σ

/-- The Go function `resourceDockerSecretRead`. -/
def resourceDockerSecretRead (c : SecretClient σ) (d : SecretData) (w : σ) :
    Option Error × SecretData × σ :=
  match c.SecretInspectWithRaw d.id w with
  | ((_, some _), s) => (none, { d with id := "" }, s)
  | ((secretID, none), s) => (none, { d with id := secretID }, s)

/-- The value `secretSpec` that `resourceDockerSecretCreate` builds before
it calls the store: the decoded payload (the decoding error is dropped), the
name, and the labels when `d.GetOk("labels")` reports a non-empty set. -/
def secretSpec (c : SecretClient σ) (d : SecretData) : SecretSpec :=
  let data := c.DecodeString d.data
  let secretSpec : SecretSpec := { Name := d.name, Labels := [], Data := data }
  if d.labels ≠ [] then { secretSpec with Labels := c.labelSetToMap d.labels } else secretSpec

/-- The Go function `resourceDockerSecretCreate`. -/
def resourceDockerSecretCreate (c : SecretClient σ) (d : SecretData) (w : σ) :
    Option Error × SecretData × σ :=
  match c.SecretCreate (secretSpec c d) w with
  | ((_, some err), s) => (some err, d, s)
  | ((secretID, none), s) => resourceDockerSecretRead c { d with id := secretID } s

/-- The Go function `resourceDockerSecretDelete`. -/
def resourceDockerSecretDelete (c : SecretClient σ) (d : SecretData) (w : σ) :
    Option Error × SecretData × σ :=
  match c.SecretRemove d.id w with
  | (some err, s) => (some err, d, s)
  | (none, s) => (none, { d with id := "" }, s)

/-! ## A scripted world for concrete runs -/

/-- A scripted registry and daemon: what digest resolution and the pull
return, whether listing fails, the images whose removal fails, and the
images held locally. -/
structure Script where
  resolve : String × Option Error
  pull : Option Error
  list : Option Error
  failing : List String
  images : List String
deriving DecidableEq, Repr

/-- Collaborators that follow the script; a successful removal drops the
image from the local ones. -/
def scripted : Collaborators Script (List String) where
  getLatestImageDigestByName := fun _ s => (s.resolve, s)
  pullImage := fun n s =>
    match s.pull with
    | some e => (some e, s)
    | none => (none, { s with images := n :: s.images })
  fetchLocalImages := fun s => ((s.images, s.list), s)
  forceRemoveImage := fun n _ s =>
    if n ∈ s.failing then (some ("cannot remove " ++ n), s)
    else (none, { s with images := s.images.filter fun i => i ≠ n })

/-- A scripted secret store: what create, inspect and remove return. -/
structure SecretScript where
  create : String × Option Error
  inspect : String × Option Error
  remove : Option Error
deriving DecidableEq, Repr

/-- A secret client that follows the script; payload bytes are the character
codes and labels are passed through. -/
def scriptedSecrets : SecretClient SecretScript where
  DecodeString := fun t => t.toList.map Char.toNat
  labelSetToMap := fun l => l
  SecretCreate := fun _ s => (s.create, s)
  SecretInspectWithRaw := fun _ s => (s.inspect, s)
  SecretRemove := fun _ s => (s.remove, s)

/-- The states of the tag resource that a successful create followed by any
number of reads and updates, each in any world, can leave behind. -/
inductive Reachable (c : Collaborators σ Data) : TagData → Prop
  | create (d : TagData) (s : σ) :
      (resourceDockerTagCreate c d s).outcome = Outcome.ok →
      Reachable c (resourceDockerTagCreate c d s).d
  | read (d : TagData) (s : σ) :
      Reachable c d → Reachable c (resourceDockerTagRead c d s).d
  | update (d : TagData) (s : σ) :
      Reachable c d → Reachable c (resourceDockerTagUpdate c d s).d

/-- The image reference `name@digest`. -/
def tagged (name digest : String) : String := name ++ "@" ++ digest

/-- A call that belongs to pruning: the listing of the local images or a
forced removal. -/
def Call.isPrune : Call → Bool
  | Call.fetchLocalImages => true
  | Call.forceRemoveImage _ => true
  | _ => false

/-- The tag resource of `library/nginx` after a create that resolved
`sha256:aaa` and a refresh that resolved `sha256:bbb`. -/
def nginx : TagData :=
  { id := "library/nginx", name := "library/nginx", latest := "sha256:bbb",
    full_image_name := "library/nginx@sha256:bbb", all := ["sha256:aaa"] }

/-- A world in which the registry resolves to `sha256:bbb`, every call
succeeds and the old image is held locally. -/
def calm : Script :=
  { resolve := ("sha256:bbb", none), pull := none, list := none, failing := [],
    images := ["library/nginx@sha256:aaa"] }

/-- The same resource when the refresh resolved the digest it already
tracks. -/
def steady : TagData :=
  { id := "library/nginx", name := "library/nginx", latest := "sha256:aaa",
    full_image_name := "library/nginx@sha256:aaa", all := ["sha256:aaa"] }

/-- A world in which the registry still resolves to `sha256:aaa` and every
call succeeds. -/
def unchanged : Script :=
  { resolve := ("sha256:aaa", none), pull := none, list := none, failing := [],
    images := ["library/nginx@sha256:aaa"] }

/-- The resource with two tracked digests and a newer one resolved. -/
def grown : TagData :=
  { id := "library/nginx", name := "library/nginx", latest := "sha256:ccc",
    full_image_name := "library/nginx@sha256:ccc", all := ["sha256:bbb", "sha256:aaa"] }

/-- A world in which listing the local images fails. -/
def listingDown : Script :=
  { resolve := ("sha256:ccc", none), pull := none, list := some "daemon unreachable",
    failing := [], images := [] }

/-- A world in which the registry no longer knows the name. -/
def notFound : Script :=
  { resolve := ("", some "manifest unknown"), pull := none, list := none, failing := [],
    images := [] }

/-- A world in which the registry cannot be reached. -/
def registryDown : Script :=
  { resolve := ("", some "registry unreachable"), pull := none, list := none, failing := [],
    images := ["library/nginx@sha256:aaa"] }

/-- A secret as configured, before it is created. -/
def token : SecretData :=
  { id := "", name := "token", data := "aGVsbG8=", labels := [] }

/-- A store that creates the secret as `s1` and then fails to find it. -/
def vanished : SecretScript :=
  { create := ("s1", none), inspect := ("", some "secret not found"), remove := none }

/-- A store that creates the secret as `s1` and finds it again. -/
def stored : SecretScript :=
  { create := ("s1", none), inspect := ("s1", none), remove := none }

/-- The daemon accepts the forced removal of `name@x` for every `x` of the
list, one after the other: starting in the first world, each call of
`forceRemoveImage` returns `nil`, and the last one leaves the second world. -/
inductive RemovalsOk (c : Collaborators σ Data) (name : String) (data : Data) :
    List String → σ → σ → Prop
  | nil (s : σ) : RemovalsOk c name data [] s s
  | cons (x : String) (rest : List String) (s s1 s2 : σ) :
      c.forceRemoveImage (name ++ "@" ++ x) data s = (none, s1) →
      RemovalsOk c name data rest s1 s2 →
      RemovalsOk c name data (x :: rest) s s2

/-- The record of a forced removal of `name@x` that returned `nil`. -/
def removedOk (name x : String) : Event :=
  ⟨Call.forceRemoveImage (name ++ "@" ++ x), none⟩

/-- A world in which every call succeeds except the removal of
`library/nginx@sha256:aaa`. -/
def stuck : Script :=
  { resolve := ("sha256:ccc", none), pull := none, list := none,
    failing := ["library/nginx@sha256:aaa"],
    images := ["library/nginx@sha256:bbb", "library/nginx@sha256:aaa"] }

/-- The returned error `err` agrees with the recorded calls: either nothing
failed and `nil` is returned, or the last call is the only one that failed
and its error is the one returned. -/
def StopsAtFirstError (err : Option Error) (events : List Event) : Prop :=
  (err = none ∧ ∀ e ∈ events, e.err = none) ∨
  (∃ pre last x, events = pre ++ [last] ∧ last.err = some x ∧ err = some x ∧
    ∀ e ∈ pre, e.err = none)

/-! ## Properties of the tag resource -/

theorem interfaceSliceToStringSlice_eq (l : List String) :
    interfaceSliceToStringSlice l = l := by
  simp [interfaceSliceToStringSlice]

theorem pullImageByDigest_err (c : Collaborators σ Data) (name digest : String) (s : σ) :
    (pullImageByDigest c name digest s).err = none ↔
      (c.pullImage (name ++ "@" ++ digest) s).1 = none := by
  unfold pullImageByDigest
  rcases h : c.pullImage (name ++ "@" ++ digest) s with ⟨_ | e, s1⟩ <;> simp [h]

/-- C1: when digest resolution returns `digest` without error and the pull of
`name@digest` succeeds, create returns no error and leaves the identifier
equal to the name, `latest` equal to the digest, `full_image_name` equal to
`name@digest` and `all` equal to the one-element list of the digest. -/
theorem create_success (c : Collaborators σ Data) (d : TagData) (s s1 s2 : σ)
    (digest : String)
    (hres : c.getLatestImageDigestByName d.name s = ((digest, none), s1))
    (hpull : c.pullImage (d.name ++ "@" ++ digest) s1 = (none, s2)) :
    (resourceDockerTagCreate c d s).outcome = Outcome.ok ∧
    (resourceDockerTagCreate c d s).d.id = d.name ∧
    (resourceDockerTagCreate c d s).d.name = d.name ∧
    (resourceDockerTagCreate c d s).d.latest = digest ∧
    (resourceDockerTagCreate c d s).d.full_image_name = d.name ++ "@" ++ digest ∧
    (resourceDockerTagCreate c d s).d.all = [digest] := by
  simp [resourceDockerTagCreate, hres, pullImageByDigest, hpull]

theorem create_success_witness :
    (resourceDockerTagCreate scripted nginx calm).outcome = Outcome.ok ∧
    (resourceDockerTagCreate scripted nginx calm).d.id = "library/nginx" ∧
    (resourceDockerTagCreate scripted nginx calm).d.name = "library/nginx" ∧
    (resourceDockerTagCreate scripted nginx calm).d.latest = "sha256:bbb" ∧
    (resourceDockerTagCreate scripted nginx calm).d.full_image_name
      = "library/nginx" ++ "@" ++ "sha256:bbb" ∧
    (resourceDockerTagCreate scripted nginx calm).d.all = ["sha256:bbb"] :=
  create_success scripted nginx calm calm
    { calm with images := "library/nginx@sha256:bbb" :: calm.images } "sha256:bbb" rfl rfl

/-! ### The pruning loop -/

theorem StopsAtFirstError.cons_ok {err : Option Error} {events : List Event}
    (h : StopsAtFirstError err events) (c : Call) :
    StopsAtFirstError err (⟨c, none⟩ :: events) := by
  rcases h with ⟨h1, h2⟩ | ⟨pre, last, x, h1, h2, h3, h4⟩
  · left
    refine ⟨h1, ?_⟩
    intro e he
    rcases List.mem_cons.mp he with rfl | he
    · rfl
    · exact h2 e he
  · right
    refine ⟨⟨c, none⟩ :: pre, last, x, by simp [h1], h2, h3, ?_⟩
    intro e he
    rcases List.mem_cons.mp he with rfl | he
    · rfl
    · exact h4 e he

theorem StopsAtFirstError.single (c : Call) (x : Error) :
    StopsAtFirstError (some x) [⟨c, some x⟩] :=
  Or.inr ⟨[], ⟨c, some x⟩, x, rfl, rfl, rfl, by simp⟩

theorem StopsAtFirstError.none_iff {err : Option Error} {events : List Event}
    (h : StopsAtFirstError err events) :
    err = none ↔ ∀ e ∈ events, e.err = none := by
  rcases h with ⟨h1, h2⟩ | ⟨pre, last, x, h1, h2, h3, _⟩
  · exact ⟨fun _ => h2, fun _ => h1⟩
  · constructor
    · intro h
      rw [h3] at h
      cases h
    · intro h
      have := h last (by simp [h1])
      rw [h2] at this
      cases this

theorem StopsAtFirstError.of_failed {err : Option Error} {events : List Event}
    (h : StopsAtFirstError err events) {e : Event} {x : Error}
    (he : e ∈ events) (hx : e.err = some x) : err = some x := by
  rcases h with ⟨_, h2⟩ | ⟨pre, last, y, h1, h2, h3, h4⟩
  · have := h2 e he
    rw [hx] at this
    cases this
  · rw [h1] at he
    rcases List.mem_append.mp he with he | he
    · have := h4 e he
      rw [hx] at this
      cases this
    · have : e = last := by simpa using he
      subst this
      rw [hx] at h2
      rw [h3, h2]

theorem removeLoop_cons_ok (c : Collaborators σ Data) (name : String) (data : Data)
    (digest : String) (rest : List String) (s s1 : σ)
    (h : c.forceRemoveImage (name ++ "@" ++ digest) data s = (none, s1)) :
    removeLoop c name data (digest :: rest) s =
      ⟨(removeLoop c name data rest s1).err, (removeLoop c name data rest s1).st,
        ⟨Call.forceRemoveImage (name ++ "@" ++ digest), none⟩ ::
          (removeLoop c name data rest s1).events⟩ := by
  simp [removeLoop, h]

theorem removeLoop_cons_err (c : Collaborators σ Data) (name : String) (data : Data)
    (digest : String) (rest : List String) (s s1 : σ) (x : Error)
    (h : c.forceRemoveImage (name ++ "@" ++ digest) data s = (some x, s1)) :
    removeLoop c name data (digest :: rest) s =
      ⟨some x, s1, [⟨Call.forceRemoveImage (name ++ "@" ++ digest), some x⟩]⟩ := by
  simp [removeLoop, h]

theorem removeImagesByDigest_ok (c : Collaborators σ Data) (name : String)
    (l : List String) (s s1 : σ) (data : Data)
    (h : c.fetchLocalImages s = ((data, none), s1)) :
    removeImagesByDigest c name l s =
      ⟨(removeLoop c name data l s1).err, (removeLoop c name data l s1).st,
        ⟨Call.fetchLocalImages, none⟩ :: (removeLoop c name data l s1).events⟩ := by
  simp [removeImagesByDigest, h]

theorem removeImagesByDigest_err (c : Collaborators σ Data) (name : String)
    (l : List String) (s s1 : σ) (data : Data) (x : Error)
    (h : c.fetchLocalImages s = ((data, some x), s1)) :
    removeImagesByDigest c name l s = ⟨some x, s1, [⟨Call.fetchLocalImages, some x⟩]⟩ := by
  simp [removeImagesByDigest, h]

theorem removeLoop_stops (c : Collaborators σ Data) (name : String) (data : Data)
    (l : List String) (s : σ) :
    StopsAtFirstError (removeLoop c name data l s).err (removeLoop c name data l s).events := by
  induction l generalizing s with
  | nil => exact Or.inl ⟨rfl, by simp [removeLoop]⟩
  | cons digest rest ih =>
    rcases h : c.forceRemoveImage (name ++ "@" ++ digest) data s with ⟨_ | x, s1⟩
    · rw [removeLoop_cons_ok c name data digest rest s s1 h]
      exact (ih s1).cons_ok _
    · rw [removeLoop_cons_err c name data digest rest s s1 x h]
      exact StopsAtFirstError.single _ x

theorem removeLoop_calls (c : Collaborators σ Data) (name : String) (data : Data)
    (l : List String) (s : σ) :
    ∃ k, k ≤ l.length ∧
      (removeLoop c name data l s).events.map Event.call
        = (l.take k).map (fun x => Call.forceRemoveImage (tagged name x)) ∧
      ((removeLoop c name data l s).err = none → k = l.length) := by
  induction l generalizing s with
  | nil => exact ⟨0, by simp [removeLoop]⟩
  | cons digest rest ih =>
    rcases h : c.forceRemoveImage (name ++ "@" ++ digest) data s with ⟨_ | x, s1⟩
    · rw [removeLoop_cons_ok c name data digest rest s s1 h]
      obtain ⟨k, hk, hc, hn⟩ := ih s1
      refine ⟨k + 1, by simpa using hk, ?_, ?_⟩
      · simp [tagged, hc]
      · intro h0
        simpa using hn h0
    · rw [removeLoop_cons_err c name data digest rest s s1 x h]
      exact ⟨1, by simp, by simp [tagged], by simp⟩

theorem removeImagesByDigest_stops (c : Collaborators σ Data) (name : String)
    (l : List String) (s : σ) :
    StopsAtFirstError (removeImagesByDigest c name l s).err
      (removeImagesByDigest c name l s).events := by
  rcases h : c.fetchLocalImages s with ⟨⟨data, _ | x⟩, s1⟩
  · rw [removeImagesByDigest_ok c name l s s1 data h]
    exact (removeLoop_stops c name data l s1).cons_ok _
  · rw [removeImagesByDigest_err c name l s s1 data x h]
    exact StopsAtFirstError.single _ x

theorem removeImagesByDigest_calls (c : Collaborators σ Data) (name : String)
    (l : List String) (s : σ) :
    ∃ k, k ≤ l.length ∧
      (removeImagesByDigest c name l s).events.map Event.call
        = Call.fetchLocalImages ::
            (l.take k).map (fun x => Call.forceRemoveImage (tagged name x)) ∧
      ((removeImagesByDigest c name l s).err = none → k = l.length) := by
  rcases h : c.fetchLocalImages s with ⟨⟨data, _ | x⟩, s1⟩
  · rw [removeImagesByDigest_ok c name l s s1 data h]
    obtain ⟨k, hk, hc, hn⟩ := removeLoop_calls c name data l s1
    exact ⟨k, hk, by simpa using hc, hn⟩
  · rw [removeImagesByDigest_err c name l s s1 data x h]
    exact ⟨0, by simp⟩

theorem removeImagesByDigest_isPrune (c : Collaborators σ Data) (name : String)
    (l : List String) (s : σ) :
    ∀ e ∈ (removeImagesByDigest c name l s).events, e.call.isPrune = true := by
  obtain ⟨k, _, hc, _⟩ := removeImagesByDigest_calls c name l s
  intro e he
  have : e.call ∈ (removeImagesByDigest c name l s).events.map Event.call :=
    List.mem_map_of_mem _ he
  rw [hc] at this
  rcases List.mem_cons.mp this with h | h
  · rw [h]; rfl
  · obtain ⟨x, _, hx⟩ := List.mem_map.mp h
    rw [← hx]; rfl

theorem removals_eq_of_calls (events : List Event) (ts : List String)
    (h : events.map Event.call = ts.map Call.forceRemoveImage) :
    removals events = ts := by
  induction events generalizing ts with
  | nil =>
    cases ts with
    | nil => rfl
    | cons t ts => simp at h
  | cons e es ih =>
    cases ts with
    | nil => simp at h
    | cons t ts =>
      simp only [List.map_cons, List.cons.injEq] at h
      obtain ⟨c, err⟩ := e
      simp only at h
      obtain ⟨h1, h2⟩ := h
      subst h1
      simp [removals, ih ts h2]

theorem removals_append (es fs : List Event) :
    removals (es ++ fs) = removals es ++ removals fs := by
  induction es with
  | nil => rfl
  | cons e es ih =>
    obtain ⟨c, err⟩ := e
    cases c <;> simp [removals, ih]

theorem removals_of_not_isPrune (es : List Event)
    (h : ∀ e ∈ es, e.call.isPrune = false) : removals es = [] := by
  induction es with
  | nil => rfl
  | cons e es ih =>
    obtain ⟨c, err⟩ := e
    have h0 := h ⟨c, err⟩ (by simp)
    have ih := ih (fun e he => h e (List.mem_cons_of_mem _ he))
    cases c <;> simp_all [removals, Call.isPrune]

theorem removals_removeImagesByDigest (c : Collaborators σ Data) (name : String)
    (l : List String) (s : σ) :
    ∃ k, k ≤ l.length ∧
      removals (removeImagesByDigest c name l s).events = (l.take k).map (tagged name) ∧
      ((removeImagesByDigest c name l s).err = none → k = l.length) := by
  obtain ⟨k, hk, hc, hn⟩ := removeImagesByDigest_calls c name l s
  refine ⟨k, hk, ?_, hn⟩
  cases hev : (removeImagesByDigest c name l s).events with
  | nil => simp [hev] at hc
  | cons e es =>
    rw [hev] at hc
    simp only [List.map_cons, List.cons.injEq] at hc
    obtain ⟨c0, err⟩ := e
    obtain ⟨h1, h2⟩ := hc
    simp only at h1
    subst h1
    have h3 : es.map Event.call = ((l.take k).map (tagged name)).map Call.forceRemoveImage := by
      rw [h2, List.map_map]; rfl
    simpa [removals] using removals_eq_of_calls es _ h3

/-! ### The pruning loop against what the daemon returns -/

theorem removeLoop_of_ok (c : Collaborators σ Data) (name : String) (data : Data)
    (l : List String) (s s2 : σ) (h : RemovalsOk c name data l s s2) :
    removeLoop c name data l s = ⟨none, s2, l.map (removedOk name)⟩ := by
  induction h with
  | nil s => rfl
  | cons x rest s s1 s2 hx _ ih =>
    rw [removeLoop_cons_ok c name data x rest s s1 hx, ih]
    rfl

theorem removeLoop_of_fail (c : Collaborators σ Data) (name : String) (data : Data)
    (pre : List String) (x : String) (post : List String) (e : Error) (s s2 s3 : σ)
    (h : RemovalsOk c name data pre s s2)
    (hx : c.forceRemoveImage (name ++ "@" ++ x) data s2 = (some e, s3)) :
    removeLoop c name data (pre ++ x :: post) s =
      ⟨some e, s3,
        pre.map (removedOk name) ++ [⟨Call.forceRemoveImage (name ++ "@" ++ x), some e⟩]⟩ := by
  induction h with
  | nil s => exact removeLoop_cons_err c name data x post s s3 e hx
  | cons y rest s s1 s2 hy _ ih =>
    rw [List.cons_append, removeLoop_cons_ok c name data y (rest ++ x :: post) s s1 hy, ih hx]
    rfl

theorem removalsOk_or_fails (c : Collaborators σ Data) (name : String) (data : Data)
    (l : List String) (s : σ) :
    (∃ s2, RemovalsOk c name data l s s2) ∨
    (∃ pre x post e s2 s3, l = pre ++ x :: post ∧ RemovalsOk c name data pre s s2 ∧
      c.forceRemoveImage (name ++ "@" ++ x) data s2 = (some e, s3)) := by
  induction l generalizing s with
  | nil => exact Or.inl ⟨s, RemovalsOk.nil s⟩
  | cons y rest ih =>
    rcases hy : c.forceRemoveImage (name ++ "@" ++ y) data s with ⟨_ | e, s1⟩
    · rcases ih s1 with ⟨s2, h⟩ | ⟨pre, x, post, e, s2, s3, hl, h, hx⟩
      · exact Or.inl ⟨s2, RemovalsOk.cons y rest s s1 s2 hy h⟩
      · exact Or.inr ⟨y :: pre, x, post, e, s2, s3, by rw [hl]; rfl,
          RemovalsOk.cons y pre s s1 s2 hy h, hx⟩
    · exact Or.inr ⟨[], y, rest, e, s, s1, rfl, RemovalsOk.nil s, hy⟩

theorem removals_map_removedOk (name : String) (l : List String) :
    removals (l.map (removedOk name)) = l.map (fun x => name ++ "@" ++ x) := by
  induction l with
  | nil => rfl
  | cons x rest ih => simp [removedOk, removals] at ih ⊢; exact ih

/-! ### The callbacks, case by case -/

theorem pullImageByDigest_events (c : Collaborators σ Data) (name digest : String) (s : σ) :
    ∀ e ∈ (pullImageByDigest c name digest s).events, e.call.isPrune = false := by
  unfold pullImageByDigest
  rcases h : c.pullImage (name ++ "@" ++ digest) s with ⟨_ | e, s1⟩ <;>
    simp [h, Call.isPrune]

theorem read_fields (c : Collaborators σ Data) (d : TagData) (s : σ) :
    (resourceDockerTagRead c d s).d.id = d.id ∧
    (resourceDockerTagRead c d s).d.name = d.name ∧
    (resourceDockerTagRead c d s).d.all = d.all ∧
    (resourceDockerTagRead c d s).d.latest = (c.getLatestImageDigestByName d.name s).1.1 ∧
    (resourceDockerTagRead c d s).outcome ≠ Outcome.sliceOutOfRange ∧
    ∀ e ∈ (resourceDockerTagRead c d s).events, e.call.isPrune = false := by
  unfold resourceDockerTagRead
  rcases h : c.getLatestImageDigestByName d.name s with ⟨⟨digest, _ | e⟩, s1⟩ <;>
    simp [h, Call.isPrune]

theorem update_of_pull_err (c : Collaborators σ Data) (d : TagData) (s : σ) (x : Error)
    (hp : (pullImageByDigest c d.name d.latest s).err = some x) :
    resourceDockerTagUpdate c d s =
      ⟨Outcome.error x, d, (pullImageByDigest c d.name d.latest s).st,
        (pullImageByDigest c d.name d.latest s).events⟩ := by
  simp [resourceDockerTagUpdate, hp]

theorem update_of_empty (c : Collaborators σ Data) (d : TagData) (s : σ)
    (hp : (pullImageByDigest c d.name d.latest s).err = none) (hall : d.all = []) :
    resourceDockerTagUpdate c d s =
      ⟨Outcome.sliceOutOfRange, d, (pullImageByDigest c d.name d.latest s).st,
        (pullImageByDigest c d.name d.latest s).events⟩ := by
  simp [resourceDockerTagUpdate, hp, hall, interfaceSliceToStringSlice]

theorem update_of_prune_err (c : Collaborators σ Data) (d : TagData) (s : σ)
    (first : String) (rest : List String) (x : Error)
    (hp : (pullImageByDigest c d.name d.latest s).err = none) (hall : d.all = first :: rest)
    (hq : (removeImagesByDigest c d.name rest (pullImageByDigest c d.name d.latest s).st).err
      = some x) :
    resourceDockerTagUpdate c d s =
      ⟨Outcome.error x, d,
        (removeImagesByDigest c d.name rest (pullImageByDigest c d.name d.latest s).st).st,
        (pullImageByDigest c d.name d.latest s).events ++
          (removeImagesByDigest c d.name rest
            (pullImageByDigest c d.name d.latest s).st).events⟩ := by
  simp [resourceDockerTagUpdate, hp, hall, interfaceSliceToStringSlice, hq]

theorem update_of_prune_ok (c : Collaborators σ Data) (d : TagData) (s : σ)
    (first : String) (rest : List String)
    (hp : (pullImageByDigest c d.name d.latest s).err = none) (hall : d.all = first :: rest)
    (hq : (removeImagesByDigest c d.name rest (pullImageByDigest c d.name d.latest s).st).err
      = none) :
    resourceDockerTagUpdate c d s =
      ⟨(resourceDockerTagRead c
          { d with full_image_name := d.name ++ "@" ++ d.latest, all := ["latest", first] }
          (removeImagesByDigest c d.name rest (pullImageByDigest c d.name d.latest s).st).st).outcome,
       (resourceDockerTagRead c
          { d with full_image_name := d.name ++ "@" ++ d.latest, all := ["latest", first] }
          (removeImagesByDigest c d.name rest (pullImageByDigest c d.name d.latest s).st).st).d,
       (resourceDockerTagRead c
          { d with full_image_name := d.name ++ "@" ++ d.latest, all := ["latest", first] }
          (removeImagesByDigest c d.name rest (pullImageByDigest c d.name d.latest s).st).st).st,
       (pullImageByDigest c d.name d.latest s).events ++
          (removeImagesByDigest c d.name rest
            (pullImageByDigest c d.name d.latest s).st).events ++
       (resourceDockerTagRead c
          { d with full_image_name := d.name ++ "@" ++ d.latest, all := ["latest", first] }
          (removeImagesByDigest c d.name rest
            (pullImageByDigest c d.name d.latest s).st).st).events⟩ := by
  simp [resourceDockerTagUpdate, hp, hall, interfaceSliceToStringSlice, hq]

theorem delete_of_err (c : Collaborators σ Data) (d : TagData) (s : σ) (x : Error)
    (hq : (removeImagesByDigest c d.name d.all s).err = some x) :
    resourceDockerTagDelete c d s =
      ⟨Outcome.error x, d, (removeImagesByDigest c d.name d.all s).st,
        (removeImagesByDigest c d.name d.all s).events⟩ := by
  simp [resourceDockerTagDelete, interfaceSliceToStringSlice, hq]

theorem delete_of_ok (c : Collaborators σ Data) (d : TagData) (s : σ)
    (hq : (removeImagesByDigest c d.name d.all s).err = none) :
    resourceDockerTagDelete c d s =
      ⟨Outcome.ok, { d with id := "" }, (removeImagesByDigest c d.name d.all s).st,
        (removeImagesByDigest c d.name d.all s).events⟩ := by
  simp [resourceDockerTagDelete, interfaceSliceToStringSlice, hq]

/-! ### What holds of the error paths -/

theorem create_error_keeps_state (c : Collaborators σ Data) (d : TagData) (s : σ)
    (x : Error) (h : (resourceDockerTagCreate c d s).outcome = Outcome.error x) :
    (resourceDockerTagCreate c d s).d = d := by
  rcases hr : c.getLatestImageDigestByName d.name s with ⟨⟨digest, _ | e⟩, s1⟩
  · rcases hp : (pullImageByDigest c d.name digest s1).err with _ | e
    · simp [resourceDockerTagCreate, hr, hp] at h
    · simp [resourceDockerTagCreate, hr, hp]
  · simp [resourceDockerTagCreate, hr]

theorem pullImageByDigest_of_err (c : Collaborators σ Data) (name digest : String) (s : σ)
    (x : Error) (h : (c.pullImage (name ++ "@" ++ digest) s).1 = some x) :
    (pullImageByDigest c name digest s).err
      = some ("Unable to pull image " ++ (name ++ "@" ++ digest) ++ ": " ++ x) := by
  rcases hc : c.pullImage (name ++ "@" ++ digest) s with ⟨_ | e, s1⟩
  · rw [hc] at h; cases h
  · rw [hc] at h
    simp only [Option.some.injEq] at h
    simp [pullImageByDigest, hc, h]

theorem update_pull_error_keeps_state (c : Collaborators σ Data) (d : TagData) (s : σ)
    (x : Error) (h : (c.pullImage (d.name ++ "@" ++ d.latest) s).1 = some x) :
    (resourceDockerTagUpdate c d s).outcome
        = Outcome.error ("Unable to pull image " ++ (d.name ++ "@" ++ d.latest) ++ ": " ++ x) ∧
      (resourceDockerTagUpdate c d s).d = d := by
  rw [update_of_pull_err c d s _ (pullImageByDigest_of_err c d.name d.latest s x h)]
  exact ⟨rfl, rfl⟩

theorem delete_error_keeps_state (c : Collaborators σ Data) (d : TagData) (s : σ)
    (x : Error) (h : (resourceDockerTagDelete c d s).outcome = Outcome.error x) :
    (resourceDockerTagDelete c d s).d = d := by
  rcases hq : (removeImagesByDigest c d.name d.all s).err with _ | e
  · rw [delete_of_ok c d s hq] at h; cases h
  · rw [delete_of_err c d s e hq]

theorem update_ok_all (c : Collaborators σ Data) (d : TagData) (s : σ)
    (first : String) (rest : List String) (hall : d.all = first :: rest)
    (h : (resourceDockerTagUpdate c d s).outcome = Outcome.ok) :
    (resourceDockerTagUpdate c d s).d.all = ["latest", first] := by
  rcases hp : (pullImageByDigest c d.name d.latest s).err with _ | e
  · rcases hq : (removeImagesByDigest c d.name rest
        (pullImageByDigest c d.name d.latest s).st).err with _ | e
    · rw [update_of_prune_ok c d s first rest hp hall hq]
      exact (read_fields c _ _).2.2.1
    · rw [update_of_prune_err c d s first rest e hp hall hq] at h; cases h
  · rw [update_of_pull_err c d s e hp] at h; cases h

theorem update_all_ne_nil (c : Collaborators σ Data) (d : TagData) (s : σ)
    (hall : d.all ≠ []) :
    (resourceDockerTagUpdate c d s).d.all ≠ [] ∧
      (resourceDockerTagUpdate c d s).outcome ≠ Outcome.sliceOutOfRange := by
  rcases hd : d.all with _ | ⟨first, rest⟩
  · exact absurd hd hall
  rcases hp : (pullImageByDigest c d.name d.latest s).err with _ | e
  · rcases hq : (removeImagesByDigest c d.name rest
        (pullImageByDigest c d.name d.latest s).st).err with _ | e
    · rw [update_of_prune_ok c d s first rest hp hd hq]
      refine ⟨?_, (read_fields c _ _).2.2.2.2.1⟩
      simp only
      rw [(read_fields c _ _).2.2.1]
      simp
    · rw [update_of_prune_err c d s first rest e hp hd hq]
      simp [hd]
  · rw [update_of_pull_err c d s e hp]
    simp [hd]

/-! ### Update: the managed list after a success -/

/-- C2: on the state with `all = ["sha256:aaa"]` and `latest = "sha256:bbb"`,
in a world where every call succeeds, update returns no error and the managed
list it leaves is `["latest", "sha256:aaa"]`: the first entry is the literal
word `latest`, not the digest `sha256:bbb` that was pulled, so the list is not
`["sha256:bbb", "sha256:aaa"]`. -/
theorem update_stores_the_word_latest :
    (resourceDockerTagUpdate scripted nginx calm).outcome = Outcome.ok ∧
    nginx.latest = "sha256:bbb" ∧ nginx.all = ["sha256:aaa"] ∧
    (resourceDockerTagUpdate scripted nginx calm).d.all = ["latest", "sha256:aaa"] ∧
    (resourceDockerTagUpdate scripted nginx calm).d.all ≠ ["sha256:bbb", "sha256:aaa"] := by
  decide

/-- C3: after a successful update of the state with `all = ["sha256:aaa"]` and
`latest = "sha256:aaa"`, in a world where the registry still resolves to
`sha256:aaa`, the latest digest is `sha256:aaa` while the first element of the
managed list is the word `latest`: the two differ. -/
theorem update_latest_is_not_head :
    (resourceDockerTagUpdate scripted steady unchanged).outcome = Outcome.ok ∧
    (resourceDockerTagUpdate scripted steady unchanged).d.latest = "sha256:aaa" ∧
    (resourceDockerTagUpdate scripted steady unchanged).d.all.head? = some "latest" ∧
    (resourceDockerTagUpdate scripted steady unchanged).d.all.head?
      ≠ some (resourceDockerTagUpdate scripted steady unchanged).d.latest := by
  decide

/-! ### Update: what is pruned -/

/-- C4, as stated, fails: for `all = ["sha256:aaa"]` and `latest =
"sha256:bbb"` the pull succeeds and update requests no removal at all, while
the entries of the old list other than the pulled digest are
`library/nginx@sha256:aaa`. -/
theorem update_spares_the_head :
    (scripted.pullImage (nginx.name ++ "@" ++ nginx.latest) calm).1 = none ∧
    removals (resourceDockerTagUpdate scripted nginx calm).events = [] ∧
    (nginx.all.filter (fun x => x ≠ nginx.latest)).map (fun x => nginx.name ++ "@" ++ x)
      = ["library/nginx@sha256:aaa"] ∧
    removals (resourceDockerTagUpdate scripted nginx calm).events
      ≠ (nginx.all.filter (fun x => x ≠ nginx.latest)).map (fun x => nginx.name ++ "@" ++ x) := by
  decide

/-- C4, amended: on a state whose managed list is `first :: rest` and on which
the pull of `name@latest` succeeds, update lists the local images and then
asks for the removal of `name@x` for the entries `x` of `rest`, the list
without its first position, in stored order and only as far as the daemon
lets it: no removal is requested when the listing fails; when the removal of
an entry fails, the entries before it and that entry have been requested and
none after it; when the listing and every removal succeed, the removals
requested are those of all of `rest`.  The entries are taken by position, and
the pulled digest has no part in the choice. -/
theorem update_prunes_the_tail (c : Collaborators σ Data) (d : TagData) (s s0 : σ)
    (first : String) (rest : List String)
    (hpull : c.pullImage (d.name ++ "@" ++ d.latest) s = (none, s0))
    (hall : d.all = first :: rest) :
    (∀ data e s1, c.fetchLocalImages s0 = ((data, some e), s1) →
      (resourceDockerTagUpdate c d s).events
          = [⟨Call.pullImage (d.name ++ "@" ++ d.latest), none⟩,
              ⟨Call.fetchLocalImages, some e⟩] ∧
        removals (resourceDockerTagUpdate c d s).events = []) ∧
    (∀ data s1 pre x post e s2 s3, c.fetchLocalImages s0 = ((data, none), s1) →
      rest = pre ++ x :: post → RemovalsOk c d.name data pre s1 s2 →
      c.forceRemoveImage (d.name ++ "@" ++ x) data s2 = (some e, s3) →
      (resourceDockerTagUpdate c d s).events
          = [⟨Call.pullImage (d.name ++ "@" ++ d.latest), none⟩, ⟨Call.fetchLocalImages, none⟩]
            ++ pre.map (removedOk d.name)
            ++ [⟨Call.forceRemoveImage (d.name ++ "@" ++ x), some e⟩] ∧
        removals (resourceDockerTagUpdate c d s).events
          = (pre ++ [x]).map (fun y => d.name ++ "@" ++ y)) ∧
    (∀ data s1 s2, c.fetchLocalImages s0 = ((data, none), s1) →
      RemovalsOk c d.name data rest s1 s2 →
      (resourceDockerTagUpdate c d s).events
          = [⟨Call.pullImage (d.name ++ "@" ++ d.latest), none⟩, ⟨Call.fetchLocalImages, none⟩]
            ++ rest.map (removedOk d.name)
            ++ [⟨Call.getLatestImageDigestByName d.name,
                  (c.getLatestImageDigestByName d.name s2).1.2⟩] ∧
        removals (resourceDockerTagUpdate c d s).events
          = rest.map (fun y => d.name ++ "@" ++ y)) := by
  have hp : pullImageByDigest c d.name d.latest s
      = ⟨none, s0, [⟨Call.pullImage (d.name ++ "@" ++ d.latest), none⟩]⟩ := by
    simp [pullImageByDigest, hpull]
  have hpe : (pullImageByDigest c d.name d.latest s).err = none := by rw [hp]
  refine ⟨?_, ?_, ?_⟩
  · intro data e s1 hf
    have hq := removeImagesByDigest_err c d.name rest s0 s1 data e hf
    have hev : (resourceDockerTagUpdate c d s).events
        = [⟨Call.pullImage (d.name ++ "@" ++ d.latest), none⟩,
            ⟨Call.fetchLocalImages, some e⟩] := by
      rw [update_of_prune_err c d s first rest e hpe hall (by rw [hp, hq]), hp, hq]
      rfl
    rw [hev]
    exact ⟨rfl, rfl⟩
  · intro data s1 pre x post e s2 s3 hf hrest hok hx
    have hq : removeImagesByDigest c d.name rest s0
        = ⟨some e, s3, ⟨Call.fetchLocalImages, none⟩ ::
            (pre.map (removedOk d.name) ++
              [⟨Call.forceRemoveImage (d.name ++ "@" ++ x), some e⟩])⟩ := by
      rw [removeImagesByDigest_ok c d.name rest s0 s1 data hf, hrest,
        removeLoop_of_fail c d.name data pre x post e s1 s2 s3 hok hx]
    have hev : (resourceDockerTagUpdate c d s).events
        = [⟨Call.pullImage (d.name ++ "@" ++ d.latest), none⟩, ⟨Call.fetchLocalImages, none⟩]
            ++ pre.map (removedOk d.name)
            ++ [⟨Call.forceRemoveImage (d.name ++ "@" ++ x), some e⟩] := by
      rw [update_of_prune_err c d s first rest e hpe hall (by rw [hp, hq]), hp, hq]
      simp
    rw [hev]
    refine ⟨rfl, ?_⟩
    simp [removals_append, removals, removals_map_removedOk]
  · intro data s1 s2 hf hok
    have hq : removeImagesByDigest c d.name rest s0
        = ⟨none, s2, ⟨Call.fetchLocalImages, none⟩ :: rest.map (removedOk d.name)⟩ := by
      rw [removeImagesByDigest_ok c d.name rest s0 s1 data hf,
        removeLoop_of_ok c d.name data rest s1 s2 hok]
    have hev : (resourceDockerTagUpdate c d s).events
        = [⟨Call.pullImage (d.name ++ "@" ++ d.latest), none⟩, ⟨Call.fetchLocalImages, none⟩]
            ++ rest.map (removedOk d.name)
            ++ [⟨Call.getLatestImageDigestByName d.name,
                  (c.getLatestImageDigestByName d.name s2).1.2⟩] := by
      rw [update_of_prune_ok c d s first rest hpe hall (by rw [hp, hq]), hp, hq]
      simp [resourceDockerTagRead]
    rw [hev]
    refine ⟨rfl, ?_⟩
    simp [removals_append, removals, removals_map_removedOk]

theorem update_prunes_the_tail_witness :
    (resourceDockerTagUpdate scripted grown stuck).events
        = [⟨Call.pullImage (grown.name ++ "@" ++ grown.latest), none⟩,
            ⟨Call.fetchLocalImages, none⟩]
          ++ ([] : List String).map (removedOk grown.name)
          ++ [⟨Call.forceRemoveImage (grown.name ++ "@" ++ "sha256:aaa"),
                some "cannot remove library/nginx@sha256:aaa"⟩] ∧
      removals (resourceDockerTagUpdate scripted grown stuck).events
        = ([] ++ ["sha256:aaa"]).map (fun y => grown.name ++ "@" ++ y) :=
  (update_prunes_the_tail scripted grown stuck
      { stuck with images := "library/nginx@sha256:ccc" :: stuck.images }
      "sha256:bbb" ["sha256:aaa"] rfl rfl).2.1
    ("library/nginx@sha256:ccc" :: stuck.images)
    { stuck with images := "library/nginx@sha256:ccc" :: stuck.images }
    [] "sha256:aaa" [] "cannot remove library/nginx@sha256:aaa"
    { stuck with images := "library/nginx@sha256:ccc" :: stuck.images }
    { stuck with images := "library/nginx@sha256:ccc" :: stuck.images }
    rfl rfl (RemovalsOk.nil _) (by decide)

/-! ### Read when resolution fails -/

/-- C5, as stated, fails: when the registry answers that the name is unknown,
read returns that error and the identifier stays `library/nginx`; it is not
cleared and the call does not end without error. -/
theorem read_unknown_name_is_an_error :
    (scripted.getLatestImageDigestByName nginx.name notFound).1.2 = some "manifest unknown" ∧
    (resourceDockerTagRead scripted nginx notFound).outcome = Outcome.error "manifest unknown" ∧
    (resourceDockerTagRead scripted nginx notFound).d.id = "library/nginx" ∧
    ¬ ((resourceDockerTagRead scripted nginx notFound).outcome = Outcome.ok ∧
        (resourceDockerTagRead scripted nginx notFound).d.id = "") := by
  decide

/-- C5, amended: when digest resolution fails, for whatever reason, read
returns the error of the resolver and leaves the identifier as it was. -/
theorem read_returns_resolution_error (c : Collaborators σ Data) (d : TagData) (s : σ)
    (e : Error) (hres : (c.getLatestImageDigestByName d.name s).1.2 = some e) :
    (resourceDockerTagRead c d s).outcome = Outcome.error e ∧
    (resourceDockerTagRead c d s).d.id = d.id := by
  rcases h : c.getLatestImageDigestByName d.name s with ⟨⟨digest, _ | x⟩, s1⟩
  · rw [h] at hres; cases hres
  · rw [h] at hres
    simp only [Option.some.injEq] at hres
    simp [resourceDockerTagRead, h, hres]

theorem read_returns_resolution_error_witness :
    (resourceDockerTagRead scripted nginx notFound).outcome = Outcome.error "manifest unknown" ∧
    (resourceDockerTagRead scripted nginx notFound).d.id = nginx.id :=
  read_returns_resolution_error scripted nginx notFound "manifest unknown" rfl

/-- C8: on the state with `latest = "sha256:bbb"` and `full_image_name =
"library/nginx@sha256:bbb"`, when the registry cannot be reached read returns
the error, and the state it leaves has `latest = ""` and `full_image_name =
"library/nginx@"`: it differs from the state before the call. -/
theorem read_error_overwrites_state :
    (resourceDockerTagRead scripted nginx registryDown).outcome
      = Outcome.error "registry unreachable" ∧
    (resourceDockerTagRead scripted nginx registryDown).d.latest = "" ∧
    (resourceDockerTagRead scripted nginx registryDown).d.full_image_name = "library/nginx@" ∧
    (resourceDockerTagRead scripted nginx registryDown).d ≠ nginx := by
  decide

/-! ### Update when pruning fails -/

/-- C6, as stated, fails: with `all = ["sha256:bbb", "sha256:aaa"]` and
`latest = "sha256:ccc"`, when the pull succeeds and listing the local images
fails, update returns the error and the managed list is still the old one, not
`["sha256:ccc", "sha256:bbb"]`. -/
theorem update_prune_failure_keeps_list :
    (scripted.pullImage (grown.name ++ "@" ++ grown.latest) listingDown).1 = none ∧
    (resourceDockerTagUpdate scripted grown listingDown).outcome
      = Outcome.error "daemon unreachable" ∧
    (resourceDockerTagUpdate scripted grown listingDown).d.all = ["sha256:bbb", "sha256:aaa"] ∧
    (resourceDockerTagUpdate scripted grown listingDown).d.all
      ≠ [grown.latest, "sha256:bbb"] := by
  decide

/-- C6, amended: when, during update, listing the local images or a removal
returns an error, that error is returned to the caller and the state is left
exactly as it was before the call, so the managed list is the old one. -/
theorem update_prune_failure_keeps_state (c : Collaborators σ Data) (d : TagData) (s : σ)
    (e : Event) (x : Error)
    (he : e ∈ (resourceDockerTagUpdate c d s).events)
    (hcall : e.call.isPrune = true) (hx : e.err = some x) :
    (resourceDockerTagUpdate c d s).outcome = Outcome.error x ∧
    (resourceDockerTagUpdate c d s).d = d := by
  have hpe := pullImageByDigest_events c d.name d.latest s
  have notPrune : ∀ {es : List Event}, (∀ ev ∈ es, ev.call.isPrune = false) → e ∉ es := by
    intro es hes hmem
    have := hes e hmem
    rw [hcall] at this
    cases this
  rcases hp : (pullImageByDigest c d.name d.latest s).err with _ | y
  · rcases hd : d.all with _ | ⟨first, rest⟩
    · rw [update_of_empty c d s hp hd] at he
      exact absurd he (notPrune hpe)
    · have hqs := removeImagesByDigest_stops c d.name rest
        (pullImageByDigest c d.name d.latest s).st
      rcases hq : (removeImagesByDigest c d.name rest
          (pullImageByDigest c d.name d.latest s).st).err with _ | y
      · rw [update_of_prune_ok c d s first rest hp hd hq] at he
        simp only [List.mem_append] at he
        rcases he with (he | he) | he
        · exact absurd he (notPrune hpe)
        · have := hqs.of_failed he hx
          rw [hq] at this
          cases this
        · exact absurd he (notPrune (read_fields c _ _).2.2.2.2.2)
      · rw [update_of_prune_err c d s first rest y hp hd hq] at he ⊢
        simp only [List.mem_append] at he
        rcases he with he | he
        · exact absurd he (notPrune hpe)
        · have := hqs.of_failed he hx
          rw [hq] at this
          simp only [Option.some.injEq] at this
          subst this
          exact ⟨rfl, rfl⟩
  · rw [update_of_pull_err c d s y hp] at he
    exact absurd he (notPrune hpe)

theorem update_prune_failure_keeps_state_witness :
    (resourceDockerTagUpdate scripted grown listingDown).outcome
      = Outcome.error "daemon unreachable" ∧
    (resourceDockerTagUpdate scripted grown listingDown).d = grown :=
  update_prune_failure_keeps_state scripted grown listingDown
    ⟨Call.fetchLocalImages, some "daemon unreachable"⟩ "daemon unreachable"
    (by decide) rfl rfl

/-! ### Delete -/

/-- C7: delete lists the local images and then asks for the removal of
`name@x` for the entries `x` of the whole managed list, in stored order.  When
the listing fails it returns that error, requests no removal and leaves the
state as it was.  When the listing succeeds and the removal of some entry
fails after the removals of the entries before it succeeded, it returns that
first error, has requested nothing after that entry, and leaves the state,
the identifier included, as it was.  When the listing and the removal of every
entry succeed it returns no error, every entry has been requested, and only
the identifier has changed, to the empty string.  So delete returns no error
with the identifier empty exactly when the listing and every one of the
removals succeeded. -/
theorem delete_removes_whole_list (c : Collaborators σ Data) (d : TagData) (s : σ) :
    (∀ data e s1, c.fetchLocalImages s = ((data, some e), s1) →
      resourceDockerTagDelete c d s
        = ⟨Outcome.error e, d, s1, [⟨Call.fetchLocalImages, some e⟩]⟩) ∧
    (∀ data s1 pre x post e s2 s3, c.fetchLocalImages s = ((data, none), s1) →
      d.all = pre ++ x :: post → RemovalsOk c d.name data pre s1 s2 →
      c.forceRemoveImage (d.name ++ "@" ++ x) data s2 = (some e, s3) →
      resourceDockerTagDelete c d s
        = ⟨Outcome.error e, d, s3,
            ⟨Call.fetchLocalImages, none⟩ ::
              (pre.map (removedOk d.name) ++
                [⟨Call.forceRemoveImage (d.name ++ "@" ++ x), some e⟩])⟩) ∧
    (∀ data s1 s2, c.fetchLocalImages s = ((data, none), s1) →
      RemovalsOk c d.name data d.all s1 s2 →
      resourceDockerTagDelete c d s
          = ⟨Outcome.ok, { d with id := "" }, s2,
              ⟨Call.fetchLocalImages, none⟩ :: d.all.map (removedOk d.name)⟩ ∧
        removals (resourceDockerTagDelete c d s).events
          = d.all.map (fun x => d.name ++ "@" ++ x)) ∧
    (((resourceDockerTagDelete c d s).outcome = Outcome.ok ∧
        (resourceDockerTagDelete c d s).d.id = "") ↔
      ∃ data s1 s2, c.fetchLocalImages s = ((data, none), s1) ∧
        RemovalsOk c d.name data d.all s1 s2) := by
  have listingFails : ∀ data e s1, c.fetchLocalImages s = ((data, some e), s1) →
      resourceDockerTagDelete c d s
        = ⟨Outcome.error e, d, s1, [⟨Call.fetchLocalImages, some e⟩]⟩ := by
    intro data e s1 hf
    have hq := removeImagesByDigest_err c d.name d.all s s1 data e hf
    rw [delete_of_err c d s e (by rw [hq]), hq]
  have removalFails : ∀ data s1 pre x post e s2 s3,
      c.fetchLocalImages s = ((data, none), s1) →
      d.all = pre ++ x :: post → RemovalsOk c d.name data pre s1 s2 →
      c.forceRemoveImage (d.name ++ "@" ++ x) data s2 = (some e, s3) →
      resourceDockerTagDelete c d s
        = ⟨Outcome.error e, d, s3,
            ⟨Call.fetchLocalImages, none⟩ ::
              (pre.map (removedOk d.name) ++
                [⟨Call.forceRemoveImage (d.name ++ "@" ++ x), some e⟩])⟩ := by
    intro data s1 pre x post e s2 s3 hf hall hok hx
    have hq : removeImagesByDigest c d.name d.all s
        = ⟨some e, s3, ⟨Call.fetchLocalImages, none⟩ ::
            (pre.map (removedOk d.name) ++
              [⟨Call.forceRemoveImage (d.name ++ "@" ++ x), some e⟩])⟩ := by
      rw [removeImagesByDigest_ok c d.name d.all s s1 data hf, hall,
        removeLoop_of_fail c d.name data pre x post e s1 s2 s3 hok hx]
    rw [delete_of_err c d s e (by rw [hq]), hq]
  have allSucceed : ∀ data s1 s2, c.fetchLocalImages s = ((data, none), s1) →
      RemovalsOk c d.name data d.all s1 s2 →
      resourceDockerTagDelete c d s
        = ⟨Outcome.ok, { d with id := "" }, s2,
            ⟨Call.fetchLocalImages, none⟩ :: d.all.map (removedOk d.name)⟩ := by
    intro data s1 s2 hf hok
    have hq : removeImagesByDigest c d.name d.all s
        = ⟨none, s2, ⟨Call.fetchLocalImages, none⟩ :: d.all.map (removedOk d.name)⟩ := by
      rw [removeImagesByDigest_ok c d.name d.all s s1 data hf,
        removeLoop_of_ok c d.name data d.all s1 s2 hok]
    rw [delete_of_ok c d s (by rw [hq]), hq]
  refine ⟨listingFails, removalFails, ?_, ?_, ?_⟩
  · intro data s1 s2 hf hok
    refine ⟨allSucceed data s1 s2 hf hok, ?_⟩
    rw [allSucceed data s1 s2 hf hok]
    simp [removals, removals_map_removedOk]
  · rintro ⟨hout, _⟩
    rcases hf : c.fetchLocalImages s with ⟨⟨data, _ | e⟩, s1⟩
    · rcases removalsOk_or_fails c d.name data d.all s1 with
        ⟨s2, hok⟩ | ⟨pre, x, post, e, s2, s3, hall, hok, hx⟩
      · exact ⟨data, s1, s2, rfl, hok⟩
      · rw [removalFails data s1 pre x post e s2 s3 hf hall hok hx] at hout
        cases hout
    · rw [listingFails data e s1 hf] at hout
      cases hout
  · rintro ⟨data, s1, s2, hf, hok⟩
    rw [allSucceed data s1 s2 hf hok]
    exact ⟨rfl, rfl⟩

theorem delete_removes_whole_list_witness :
    resourceDockerTagDelete scripted grown stuck
        = ⟨Outcome.error "cannot remove library/nginx@sha256:aaa", grown,
            { stuck with images := ["library/nginx@sha256:aaa"] },
            ⟨Call.fetchLocalImages, none⟩ ::
              (["sha256:bbb"].map (removedOk grown.name) ++
                [⟨Call.forceRemoveImage (grown.name ++ "@" ++ "sha256:aaa"),
                  some "cannot remove library/nginx@sha256:aaa"⟩])⟩ ∧
      (resourceDockerTagDelete scripted grown calm
          = ⟨Outcome.ok, { grown with id := "" }, { calm with images := [] },
              ⟨Call.fetchLocalImages, none⟩ :: grown.all.map (removedOk grown.name)⟩ ∧
        removals (resourceDockerTagDelete scripted grown calm).events
          = grown.all.map (fun x => grown.name ++ "@" ++ x)) :=
  ⟨(delete_removes_whole_list scripted grown stuck).2.1
      stuck.images stuck ["sha256:bbb"] "sha256:aaa" []
      "cannot remove library/nginx@sha256:aaa"
      { stuck with images := ["library/nginx@sha256:aaa"] }
      { stuck with images := ["library/nginx@sha256:aaa"] }
      rfl rfl
      (RemovalsOk.cons _ _ _ _ _ (by decide) (RemovalsOk.nil _)) (by decide),
    (delete_removes_whole_list scripted grown calm).2.2.1
      calm.images calm { calm with images := [] } rfl
      (RemovalsOk.cons _ _ _ calm _ (by decide)
        (RemovalsOk.cons _ _ _ { calm with images := [] } _ (by decide) (RemovalsOk.nil _)))⟩

/-! ### The managed list is never empty -/

/-- C9: in every state that a successful create followed by any sequence of
reads and updates (successful or failing) can leave, the managed list is not
empty, so an update on such a state never stops on the slice expression
`managedDigests[1:]` and the index `managedDigests[0]` is in range. -/
theorem reachable_all_nonempty (c : Collaborators σ Data) (d : TagData)
    (h : Reachable c d) :
    d.all ≠ [] ∧ 0 < d.all.length ∧
      ∀ s, (resourceDockerTagUpdate c d s).outcome ≠ Outcome.sliceOutOfRange := by
  have key : d.all ≠ [] := by
    induction h with
    | create d0 s0 hok =>
      rcases hr : c.getLatestImageDigestByName d0.name s0 with ⟨⟨digest, _ | e⟩, s1⟩
      · rcases hp : (pullImageByDigest c d0.name digest s1).err with _ | e
        · simp [resourceDockerTagCreate, hr, hp]
        · simp [resourceDockerTagCreate, hr, hp] at hok
      · simp [resourceDockerTagCreate, hr] at hok
    | read d0 s0 _ ih =>
      rw [(read_fields c d0 s0).2.2.1]
      exact ih
    | update d0 s0 _ ih => exact (update_all_ne_nil c d0 s0 ih).1
  exact ⟨key, List.length_pos.mpr key, fun s => (update_all_ne_nil c d s key).2⟩

theorem reachable_all_nonempty_witness :
    (resourceDockerTagUpdate scripted
        (resourceDockerTagRead scripted
          (resourceDockerTagCreate scripted nginx unchanged).d calm).d listingDown).d.all ≠ [] ∧
    0 < (resourceDockerTagUpdate scripted
        (resourceDockerTagRead scripted
          (resourceDockerTagCreate scripted nginx unchanged).d calm).d listingDown).d.all.length ∧
    ∀ s, (resourceDockerTagUpdate scripted
        (resourceDockerTagUpdate scripted
          (resourceDockerTagRead scripted
            (resourceDockerTagCreate scripted nginx unchanged).d calm).d listingDown).d s).outcome
      ≠ Outcome.sliceOutOfRange :=
  reachable_all_nonempty scripted _
    (Reachable.update _ listingDown
      (Reachable.read _ calm (Reachable.create nginx unchanged (by decide))))

/-! ## Properties of the secret resource -/

/-- C10, as stated, fails: when the store creates the secret as `s1` and the
read-back lookup then fails, create returns no error but the identifier it
leaves is empty, not `s1`. -/
theorem secret_create_loses_id :
    (scriptedSecrets.SecretCreate (secretSpec scriptedSecrets token) vanished).1
      = ("s1", none) ∧
    (resourceDockerSecretCreate scriptedSecrets token vanished).1 = none ∧
    (resourceDockerSecretCreate scriptedSecrets token vanished).2.1.id = "" ∧
    (resourceDockerSecretCreate scriptedSecrets token vanished).2.1.id ≠ "s1" := by
  decide

/-- C10, amended: when the store's create call succeeds and returns the
identifier `sid`, create returns no error, and the identifier it leaves is the
one returned by the read-back lookup of `sid` when that lookup succeeds, and
the empty string when the lookup fails. -/
theorem secret_create_adopts_read_back (c : SecretClient σ) (d : SecretData) (w s1 : σ)
    (sid : String)
    (hc : c.SecretCreate (secretSpec c d) w = ((sid, none), s1)) :
    (resourceDockerSecretCreate c d w).1 = none ∧
    (resourceDockerSecretCreate c d w).2.1.id =
      (match (c.SecretInspectWithRaw sid s1).1 with
        | (_, some _) => ""
        | (found, none) => found) := by
  unfold resourceDockerSecretCreate
  rw [hc]
  simp only
  unfold resourceDockerSecretRead
  rcases hi : c.SecretInspectWithRaw sid s1 with ⟨⟨found, _ | e⟩, s2⟩ <;> simp [hi]

theorem secret_create_adopts_read_back_witness :
    (resourceDockerSecretCreate scriptedSecrets token stored).1 = none ∧
    (resourceDockerSecretCreate scriptedSecrets token stored).2.1.id =
      (match (scriptedSecrets.SecretInspectWithRaw "s1" stored).1 with
        | (_, some _) => ""
        | (found, none) => found) :=
  secret_create_adopts_read_back scriptedSecrets token stored stored "s1" rfl

end Docker
